import Mathlib

/-!
Verification of the Car Dodger arcade game (game.py, db.py, launcher.py).

The simulation core of `game.py` is shallowly embedded below.  Conventions:

* pygame `Rect` stores integer coordinates; an assignment of a Python float
  to a `Rect` field truncates toward zero.  Python floats are modelled as
  exact rationals (`ℚ`); the truncation is `pyInt`.
* Because the `Rat` arithmetic operations of the ambient library are marked
  irreducible (so closed instances could not be checked by evaluation), the
  embedding uses the definitionally transparent wrappers `qadd`, `qsub`,
  `qneg`, `qabs`, each proved equal to the standard operation.
* Quantities the source derives from the frame clock or from `random`
  (elapsed `dt`, the shuffled lane order, the uniform speed draw, the spawn
  jitter `rnd.randint(-200, 200)`, the vertical offset `rnd.randint(0, 180)`)
  enter the embedded functions as explicit parameters.
-/

/-- Integer-to-rational cast done with `mkRat`, which the kernel can reduce
(the library coercion is not definitionally transparent). -/
def ratOfInt (n : Int) : ℚ := mkRat n 1

/-- Kernel-reducible addition on `ℚ` (the library `Rat.add` is irreducible). -/
def qadd (a b : ℚ) : ℚ := mkRat (a.num * b.den + b.num * a.den) (a.den * b.den)

/-- Kernel-reducible negation on `ℚ`. -/
def qneg (a : ℚ) : ℚ := mkRat (-a.num) a.den

/-- Kernel-reducible subtraction on `ℚ`. -/
def qsub (a b : ℚ) : ℚ := qadd a (qneg b)

/-- Kernel-reducible absolute value on `ℚ`. -/
def qabs (a : ℚ) : ℚ := if a.num < 0 then qneg a else a

/-- Python `int()` applied to a float: truncation toward zero.  This is what
pygame performs when a float is assigned to a `Rect` coordinate. -/
def pyInt (q : ℚ) : Int :=
  if q.num < 0 then -((-q.num) / (q.den : Int)) else q.num / (q.den : Int)

/-! ### Constants of game.py -/

/-- `LANES = 3`. -/
def LANES : Nat := 3

/-- `PLAYER_W, PLAYER_H = 80, 140`. -/
def PLAYER_W : Nat := 80

/-- Player sprite height. -/
def PLAYER_H : Nat := 140

/-- `ENEMY_W, ENEMY_H = 80, 140`. -/
def ENEMY_W : Nat := 80

/-- Enemy sprite height. -/
def ENEMY_H : Nat := 140

/-- `CLOSE_THRESH = 80`, compared against a float distance. -/
def CLOSE_THRESH : ℚ := mkRat 80 1

/-- `SCREEN_W, SCREEN_H = 480, 720`. -/
def SCREEN_H : Int := 720

/-- Per-mode tuning record: one row of the `DIFF` table of game.py. -/
structure ModeCfg where
  speedMin : ℚ
  speedMax : ℚ
  spawnMs : Int
  scroll : Int
  maxEnemies : Nat
deriving DecidableEq

/-- The `DIFF` dictionary of game.py: per-mode speed range, base spawn
interval, scroll speed and enemy cap. -/
def DIFF (mode : String) : Option ModeCfg :=
  if mode = "Casual" then some ⟨mkRat 4 1, mkRat 6 1, 1200, 4, 5⟩
  else if mode = "Heroic" then some ⟨mkRat 6 1, mkRat 8 1, 900, 5, 7⟩
  else if mode = "Nightmare" then some ⟨mkRat 8 1, mkRat 12 1, 550, 8, 10⟩
  else none

/-- `DIFF.get(difficulty, DIFF['Casual'])`: unknown modes fall back to
Casual. -/
def cfgDiff (mode : String) : ModeCfg :=
  (DIFF mode).getD ⟨mkRat 4 1, mkRat 6 1, 1200, 4, 5⟩

/-- `spawn_ms = max(200, spawn_ms_base + rnd.randint(-200, 200))`: the spawn
interval installed after each spawn, for a given base and drawn jitter.
This is the only adjustment the code ever makes to the spawn interval; it
does not read the score. -/
def nextSpawnMs (base jitter : Int) : Int := max 200 (base + jitter)

/-! ### Obstacles and the spawner -/

/-- One entry of the `enemies` list: `{'rect': rect, 'lane': lane,
'speed': speed, 'passed': False}`, with the rect represented by its
top-left corner (width and height are always `ENEMY_W × ENEMY_H`). -/
structure Enemy where
  lane : Nat
  x : Int
  y : Int
  speed : ℚ
  passed : Bool
deriving DecidableEq

/-- The conflict test of `spawn()`: lane `lane` is blocked when some
existing enemy in it still has `rect.y < 140` (`min_gap = 140`). -/
def laneConflict (enemies : List Enemy) (lane : Nat) : Bool :=
  enemies.any fun e => e.lane == lane && decide (e.y < 140)

/-- The lane-selection loop of `spawn()`: walk the shuffled candidate list
and return the first conflict-free lane, or `none` when every candidate
conflicts. -/
def pickLane (enemies : List Enemy) : List Nat → Option Nat
  | [] => none
  | lane :: rest =>
    if laneConflict enemies lane then pickLane enemies rest else some lane

/-- The obstacle built by `spawn()` for a chosen lane:
`x = LANE_X[lane]`, `y = -ENEMY_H - rnd.randint(0, 180)`, uniform speed,
`passed = False`. -/
def spawnEnemy (laneXs : List Int) (lane : Nat) (yOff : Nat) (speed : ℚ) : Enemy :=
  { lane := lane, x := laneXs.getD lane 0, y := -(ENEMY_H : Int) - (yOff : Int),
    speed := speed, passed := false }

/-- `spawn()` of game.py.  `order` is the value of `candidate_lanes` after
`rnd.shuffle`, `yOff` the drawn vertical offset and `speed` the drawn
speed.  Returns the updated enemy list (unchanged when the cap is reached
or no lane is eligible). -/
def spawn (laneXs : List Int) (maxEnemies : Nat) (order : List Nat) (yOff : Nat)
    (speed : ℚ) (enemies : List Enemy) : List Enemy :=
  if maxEnemies ≤ enemies.length then enemies
  else
    match pickLane enemies order with
    | none => enemies
    | some lane => enemies ++ [spawnEnemy laneXs lane yOff speed]

/-! ### Collision detection -/

/-- A pygame `Rect`: integer top-left corner plus (nonnegative) size. -/
structure Rect where
  x : Int
  y : Int
  w : Nat
  h : Nat
deriving DecidableEq

/-- pygame `Rect.colliderect`: open-interval overlap on both axes. -/
def colliderect (a b : Rect) : Bool :=
  decide (a.x < b.x + (b.w : Int)) && decide (a.y < b.y + (b.h : Int)) &&
  decide (b.x < a.x + (a.w : Int)) && decide (b.y < a.y + (a.h : Int))

/-- A pygame `Mask` built from a sprite surface: the surface size together
with the list of set pixels (offsets inside the surface). -/
structure Mask where
  w : Nat
  h : Nat
  bits : List (Int × Int)
deriving DecidableEq

/-- The mask covers only pixels of its surface: every set bit lies inside
the `w × h` box.  This is what `pg.mask.from_surface` guarantees. -/
def MaskFits (m : Mask) (w h : Nat) : Prop :=
  ∀ p ∈ m.bits, 0 ≤ p.1 ∧ p.1 < (w : Int) ∧ 0 ≤ p.2 ∧ p.2 < (h : Int)

instance (m : Mask) (w h : Nat) : Decidable (MaskFits m w h) :=
  List.decidableBAll _ m.bits

/-- pygame `self.overlap(other, off)`: some set bit of `other`, shifted by
`off` (the position of `other` relative to `self`), hits a set bit of
`self`. -/
def maskOverlap (self other : Mask) (off : Int × Int) : Bool :=
  other.bits.any fun q => self.bits.contains (q.1 + off.1, q.2 + off.2)

/-- The fallback hitbox of game.py: the rect shrunk by
`SHRINK_FRACTION = 0.35` about its center,
`pw = max(1, int(rect.w * 0.65))`, placed at `center - pw // 2`.
(`w * 13 / 20` in integers agrees with the float computation at the sizes
the game uses, 80 and 140.) -/
def shrunkRect (r : Rect) : Rect :=
  { x := r.x + ((r.w / 2 : Nat) : Int) - ((max 1 (r.w * 13 / 20) / 2 : Nat) : Int),
    y := r.y + ((r.h / 2 : Nat) : Int) - ((max 1 (r.h * 13 / 20) / 2 : Nat) : Int),
    w := max 1 (r.w * 13 / 20),
    h := max 1 (r.h * 13 / 20) }

/-- The collision policy of the main loop: when both sprites provided a
silhouette mask, use the pixel-perfect mask overlap at offset
`(e.x - player.x, e.y - player.y)`; otherwise fall back to the
shrunken-rectangle test. -/
def collides (pm em : Option Mask) (p e : Rect) : Bool :=
  match pm, em with
  | some a, some b => maskOverlap a b (e.x - p.x, e.y - p.y)
  | _, _ => colliderect (shrunkRect p) (shrunkRect e)

/-! ### Per-tick obstacle processing, pass scoring -/

/-- Half of a sprite width, as the Python float `ENEMY_W / 2 = 40.0`. -/
def halfW : ℚ := mkRat 80 2

/-- The horizontal center distance used for the pass bonus:
`abs((e.x + ENEMY_W/2) - (player.x + PLAYER_W/2))`. -/
def passDist (ex px : Int) : ℚ :=
  qabs (qsub (qadd (ratOfInt ex) halfW) (qadd (ratOfInt px) halfW))

/-- The score delta of a pass event: `+250` within `CLOSE_THRESH`, else
`+150`. -/
def passGain (ex px : Int) : Int :=
  if passDist ex px ≤ CLOSE_THRESH then 250 else 150

/-- `e['rect'].y += e['speed'] + (base_scroll * 0.15)`: the float sum is
truncated toward zero on assignment to the rect.  `scrollTerm` is the value
of `base_scroll * 0.15`. -/
def moveY (e : Enemy) (scrollTerm : ℚ) : Int :=
  pyInt (qadd (ratOfInt e.y) (qadd e.speed scrollTerm))

/-- The enemy rect as used by the collision and pass tests. -/
def enemyRect (e : Enemy) : Rect := ⟨e.x, e.y, ENEMY_W, ENEMY_H⟩

/-- Result of processing one enemy inside the per-tick `for e in enemies`
loop. -/
structure StepRes where
  collided : Bool
  score : Int
  enemy : Enemy
  despawned : Bool
deriving DecidableEq

/-- One iteration of the main-loop enemy pass: advance the rect, test for
collision (which ends the run), award the pass bonus exactly when the
obstacle has not yet been marked `passed` and its top has moved below the
player's bottom edge, and flag the obstacle for removal once it is far
below the screen. -/
def stepOne (pm em : Option Mask) (p : Rect) (scrollTerm : ℚ) (score : Int)
    (e : Enemy) : StepRes :=
  let e1 : Enemy := { e with y := moveY e scrollTerm }
  if collides pm em p (enemyRect e1) then
    ⟨true, score, e1, false⟩
  else if e1.passed = false ∧ p.y + (p.h : Int) < e1.y then
    ⟨false, score + passGain e1.x p.x, { e1 with passed := true },
      decide (SCREEN_H + 200 < e1.y)⟩
  else
    ⟨false, score, e1, decide (SCREEN_H + 200 < e1.y)⟩

/-- The whole `for e in enemies` loop of one tick, including the `break` on
collision and the deferred removal of enemies collected in `rem`.  Returns
the new score, the surviving enemy list, and whether a collision ended the
run. -/
def tickLoop (pm em : Option Mask) (p : Rect) (scrollTerm : ℚ) :
    Int → List Enemy → Int × List Enemy × Bool
  | score, [] => (score, [], false)
  | score, e :: rest =>
    let r := stepOne pm em p scrollTerm score e
    if r.collided then (score, r.enemy :: rest, true)
    else
      let t := tickLoop pm em p scrollTerm r.score rest
      (t.1, if r.despawned then t.2.1 else r.enemy :: t.2.1, t.2.2)

/-! ### Lane interpolation -/

/-- The smooth lane interpolation of the main loop: while the player is
more than one pixel from `target_x`, move one bounded step toward it,
clamping at the target; the float result is truncated on assignment.
`step` is `lane_change_speed * (dt * 0.06)`. -/
def laneStep (x targetX : Int) (step : ℚ) : Int :=
  if 1 < |x - targetX| then
    if x < targetX then pyInt (min (ratOfInt targetX) (qadd (ratOfInt x) step))
    else pyInt (max (ratOfInt targetX) (qsub (ratOfInt x) step))
  else x

/-! ### Pause overlay -/

/-- The mutable program state visible to the pause overlay: the run state
of the gameplay loop (`score`, `enemies`, lane/position variables, spawn
timers, background offset) together with the config values and loop flags
the overlay actually edits. -/
structure PState where
  score : Int
  enemies : List Enemy
  curLane : Nat
  targetX : Int
  playerX : Int
  playerY : Int
  lastSpawn : Int
  spawnMs : Int
  offset : ℚ
  vol : ℚ
  musicOn : Bool
  paused : Bool
  running : Bool
  quitAll : Bool
deriving DecidableEq

/-- The input events the pause overlay reacts to (the slider value is the
already-normalised relative position of the click). -/
inductive PEvent where
  | quitWindow
  | keyReturn
  | keyP
  | keyEscape
  | keyLeft
  | keyRight
  | clickResume
  | clickLeaderboards
  | clickHelp
  | clickQuit
  | clickSlider (rel : ℚ)
  | clickToggle
deriving DecidableEq

/-- `cfg['music_on'] = vol > 0.001` of the pause overlay. -/
def volOn (v : ℚ) : Bool := decide (mkRat 1 1000 < v)

/-- The event handling of the inner pause loop of `run_game` (one event):
Return/`p`/Resume leave the pause, Escape/Quit also end the run, the window
close button quits the program, arrow keys and the slider edit the music
volume, the toggle flips `music_on`; the Leaderboards and Help buttons open
overlay screens that return without touching game state. -/
def pauseHandle (s : PState) : PEvent → PState
  | .quitWindow => { s with paused := false, running := false, quitAll := true }
  | .keyReturn => { s with paused := false }
  | .keyP => { s with paused := false }
  | .keyEscape => { s with paused := false, running := false }
  | .keyLeft =>
    let v := max 0 (qsub s.vol (mkRat 1 20))
    { s with vol := v, musicOn := volOn v }
  | .keyRight =>
    let v := min 1 (qadd s.vol (mkRat 1 20))
    { s with vol := v, musicOn := volOn v }
  | .clickResume => { s with paused := false }
  | .clickLeaderboards => s
  | .clickHelp => s
  | .clickQuit => { s with paused := false, running := false }
  | .clickSlider rel =>
    let v := max 0 (min 1 rel)
    { s with vol := v, musicOn := volOn v }
  | .clickToggle => { s with musicOn := !s.musicOn }

/-- The pause loop's event dispatch, with the `break` of the source: once an
event clears `paused`, the remaining events of the batch are dropped and
the loop exits. -/
def pauseEvents (s : PState) : List PEvent → PState
  | [] => s
  | ev :: rest =>
    let s2 := pauseHandle s ev
    if s2.paused then pauseEvents s2 rest else s2

/-- The config writeback executed right after the pause loop exits
(`cfg['music_on'] = cfg.get('music_on') and (volume > 0.001)`); it touches
only the config, never the run state. -/
def resumeFinalize (s : PState) : PState :=
  { s with musicOn := s.musicOn && volOn s.vol }

/-- The run-state portion of `PState`: the score, the obstacle set (lanes,
positions, speeds, passed flags), the lane variables and player position,
the spawn timers and the scroll offset. -/
def runView (s : PState) :
    Int × List Enemy × Nat × Int × Int × Int × Int × Int × ℚ :=
  (s.score, s.enemies, s.curLane, s.targetX, s.playerX, s.playerY,
    s.lastSpawn, s.spawnMs, s.offset)

/-! ### End of run: score persistence and the game-over transition -/

/-- The choice made on the game-over screen. -/
inductive GOChoice where
  | restart
  | menu
  | leaderboard
  | quitWindow
deriving DecidableEq

/-- `save_score` of db.py as seen by the caller: an effectful call that
either succeeds or raises (e.g. the SQLite file is unavailable).  The
embedding abstracts it as a function returning `Except`. -/
def SaveFn : Type := Nat → Int → String → Except String Unit

/-- The tail of `run_game` after the gameplay loop ends: when a user is
logged in, attempt `save_score(user_id, score, difficulty)` inside
`try/except Exception: pass`, then show the game-over screen and return
the player's choice.  An uncaught exception would be an `Except.error`
result; the surrounding `try/except` converts any save failure into
normal continuation. -/
def runEnd (save : SaveFn) (userId : Option Nat) (score : Int) (mode : String)
    (choice : GOChoice) : Except String (Int × GOChoice) :=
  match (match userId with
         | some uid =>
           (match save uid score mode with
            | .ok _ => Except.ok ()
            | .error _ => Except.ok ())
         | none => Except.ok ()) with
  | .ok _ => .ok (score, choice)
  | .error e => .error e

/-! ### Leaderboard store (db.py) -/

/-- One row of the `scores` table. -/
structure ScoreRow where
  userId : Nat
  score : Int
  difficulty : String
  createdAt : String
deriving DecidableEq

/-- One result row of `top_scores`: `(username, score, difficulty,
created_at)`. -/
structure LBRow where
  username : String
  score : Int
  difficulty : String
  createdAt : String
deriving DecidableEq

/-- The `JOIN users u ON s.user_id = u.id ... WHERE s.difficulty = ?` part
of the distinct per-mode query: each matching score row is paired with its
user's name.  `users` is the `users` table as `(id, username)` pairs. -/
def joinedMode (users : List (Nat × String)) (scores : List ScoreRow)
    (mode : String) : List (String × Int × String) :=
  scores.filterMap fun s =>
    if s.difficulty = mode then
      (users.find? fun u => u.1 == s.userId).map fun u => (u.2, s.score, s.createdAt)
    else none

/-- SQL `MAX(s.score)` over one `GROUP BY u.username` group. -/
def bestScore (j : List (String × Int × String)) (n : String) : Int :=
  match (j.filter fun r => decide (r.1 = n)).map fun r => r.2.1 with
  | [] => 0
  | a :: t => t.foldl max a

/-- SQL `MAX(s.created_at)` (lexicographic on the ISO timestamps) over one
group. -/
def bestDate (j : List (String × Int × String)) (n : String) : String :=
  match (j.filter fun r => decide (r.1 = n)).map fun r => r.2.2 with
  | [] => ""
  | a :: t => t.foldl max a

/-- The `ORDER BY score DESC` relation on result rows. -/
def scoreGe (a b : LBRow) : Prop := b.score ≤ a.score

instance : DecidableRel scoreGe := fun a b => Int.decLe b.score a.score

instance : IsTotal LBRow scoreGe := ⟨fun a b => le_total b.score a.score⟩

instance : IsTrans LBRow scoreGe := ⟨fun _ _ _ h1 h2 => le_trans h2 h1⟩

/-- `top_scores(limit, mode, distinct=True)` of db.py with a concrete mode:
`SELECT u.username, MAX(s.score), ? as difficulty, MAX(s.created_at)
FROM scores s JOIN users u ON s.user_id = u.id WHERE s.difficulty = ?
GROUP BY u.username ORDER BY score DESC LIMIT ?`. -/
def top_scores (users : List (Nat × String)) (scores : List ScoreRow)
    (mode : String) (limit : Nat) : List LBRow :=
  let j := joinedMode users scores mode
  let names := (j.map fun r => r.1).dedup
  let rows := names.map fun n => LBRow.mk n (bestScore j n) mode (bestDate j n)
  (List.insertionSort scoreGe rows).take limit

/-! ## Bridging lemmas for the reducible wrappers -/

theorem ratOfInt_eq (n : Int) : ratOfInt n = (n : ℚ) := Rat.mkRat_one n

theorem qadd_eq (a b : ℚ) : qadd a b = a + b := (Rat.add_def' a b).symm

theorem qneg_eq (a : ℚ) : qneg a = -a := by
  rw [qneg, ← Rat.neg_mkRat, Rat.mkRat_self]

theorem qsub_eq (a b : ℚ) : qsub a b = a - b := by
  rw [qsub, qadd_eq, qneg_eq, sub_eq_add_neg]

theorem qabs_eq (a : ℚ) : qabs a = |a| := by
  rw [qabs]
  by_cases h : a.num < 0
  · rw [if_pos h, qneg_eq, abs_of_neg (Rat.num_neg.mp h)]
  · rw [if_neg h, abs_of_nonneg (Rat.num_nonneg.mp (le_of_not_lt h))]

theorem pyInt_eq (q : ℚ) : pyInt q = if q < 0 then ⌈q⌉ else ⌊q⌋ := by
  rw [pyInt]
  by_cases h : q.num < 0
  · rw [if_pos h, if_pos (Rat.num_neg.mp h)]
    have hfl : ⌊-q⌋ = (-q).num / ((-q).den : Int) := Rat.floor_def
    rw [Rat.num_neg_eq_neg_num, Rat.den_neg_eq_den] at hfl
    rw [← hfl, Int.floor_neg, neg_neg]
  · rw [if_neg h, if_neg (not_lt.mpr (Rat.num_nonneg.mp (le_of_not_lt h))), Rat.floor_def]

/-- Truncation of a rational lying between two integers stays between them. -/
theorem pyInt_bounds {a b : Int} {q : ℚ} (ha : (a : ℚ) ≤ q) (hb : q ≤ (b : ℚ)) :
    a ≤ pyInt q ∧ pyInt q ≤ b := by
  rw [pyInt_eq]
  by_cases h : q < 0
  · rw [if_pos h]
    exact ⟨by simpa using Int.ceil_le_ceil ha, Int.ceil_le.mpr hb⟩
  · rw [if_neg h]
    exact ⟨Int.le_floor.mpr ha, by simpa using Int.floor_le_floor hb⟩


/-! ## C2 — difficulty scaling -/

/-- C2 counterexample.  The claimed saturating score-driven difficulty
factor `s = 1 + min(score / K, CAP)` does not exist in the code: the speed
bounds of a mode are constants, and the spawn interval is reset after each
spawn to `max(200, spawn_ms_base + jitter)` with a score-independent random
jitter.  Concretely, in a Casual run the jitter draw `-200` gives interval
1000 and a later draw `+200` (with the score having only grown in between)
gives interval 1400: the spawn interval grew, so difficulty regressed while
the score increased, contradicting the claim. -/
theorem claim2_counterexample :
    (cfgDiff "Casual").spawnMs = 1200
    ∧ nextSpawnMs (cfgDiff "Casual").spawnMs (-200) = 1000
    ∧ nextSpawnMs (cfgDiff "Casual").spawnMs 200 = 1400
    ∧ nextSpawnMs (cfgDiff "Casual").spawnMs (-200)
        < nextSpawnMs (cfgDiff "Casual").spawnMs 200 := by
  decide

/-- C2 (amended): the code applies no score-based scaling; the spawn
interval installed after each spawn is `spawn_ms_base` plus a jitter drawn
from `[-200, 200]`, floor-clamped so it never falls below 200 ticks and
never exceeds `max 200 (base + 200)`. -/
theorem claim2_spawn_interval_clamped (base jitter : Int)
    (h1 : -200 ≤ jitter) (h2 : jitter ≤ 200) :
    200 ≤ nextSpawnMs base jitter
    ∧ max 200 (base - 200) ≤ nextSpawnMs base jitter
    ∧ nextSpawnMs base jitter ≤ max 200 (base + 200) := by
  unfold nextSpawnMs
  omega

/-- C2 witness: the clamp bounds at the Casual base with jitter 0. -/
theorem claim2_spawn_interval_clamped_witness :
    200 ≤ nextSpawnMs 1200 0
    ∧ max 200 (1200 - 200) ≤ nextSpawnMs 1200 0
    ∧ nextSpawnMs 1200 0 ≤ max 200 (1200 + 200) :=
  claim2_spawn_interval_clamped 1200 0 (by decide) (by decide)

/-! ## C6 — pass bonus -/

theorem passDist_eq (ex px : Int) : passDist ex px = |((ex : ℚ) - (px : ℚ))| := by
  rw [passDist, qabs_eq, qsub_eq, qadd_eq, qadd_eq, ratOfInt_eq, ratOfInt_eq]
  congr 1
  ring

/-- C6: a pass awards 250 exactly when the horizontal center distance is
within `CLOSE_THRESH = 80` and 150 otherwise; the close bonus is strictly
larger than the regular bonus; and the threshold is symmetric about the
player's center (only the absolute center distance matters). -/
theorem claim6_pass_bonus (ex px ex2 px2 d : Int) :
    (passGain ex px = 250 ↔ passDist ex px ≤ CLOSE_THRESH)
    ∧ (passGain ex px = 150 ↔ CLOSE_THRESH < passDist ex px)
    ∧ (passDist ex px ≤ CLOSE_THRESH → CLOSE_THRESH < passDist ex2 px2 →
        passGain ex2 px2 < passGain ex px)
    ∧ passDist (px + d) px = passDist (px - d) px
    ∧ passGain (px + d) px = passGain (px - d) px := by
  have hsym : passDist (px + d) px = passDist (px - d) px := by
    rw [passDist_eq, passDist_eq]
    push_cast
    rw [add_sub_cancel_left, sub_sub_cancel_left, abs_neg]
  refine ⟨?_, ?_, ?_, hsym, ?_⟩
  · rw [passGain]
    split_ifs with hc
    · simp [hc]
    · simp [hc]
  · rw [passGain]
    split_ifs with hc
    · simp [le_of_lt, hc, not_lt.mpr hc]
    · simp [lt_of_not_le hc]
  · intro hc hf
    simp only [passGain]
    rw [if_pos hc, if_neg (not_le.mpr hf)]
    decide
  · rw [passGain, passGain, hsym]

/-- C6 witness: obstacle centered on the player (distance 0) earns 250,
an obstacle two lanes away (distance 200) earns 150, and the close bonus
beats the regular one. -/
theorem claim6_pass_bonus_witness :
    passGain 40 40 = 250 ∧ passGain 240 40 = 150
    ∧ passGain 240 40 < passGain 40 40 := by
  refine ⟨?_, ?_, ?_⟩
  · exact (claim6_pass_bonus 40 40 240 40 0).1.mpr (by decide)
  · exact (claim6_pass_bonus 240 40 240 40 0).2.1.mpr (by decide)
  · exact (claim6_pass_bonus 40 40 240 40 0).2.2.1 (by decide) (by decide)

/-! ## C10 — lane interpolation -/

/-- C10: each interpolation step keeps the player's x between its previous
value and the target (never overshooting, moving only toward the target),
and once x equals the target it stays there until a new lane change moves
the target. -/
theorem claim10_lane_interp (x targetX : Int) (step : ℚ) (h : 0 ≤ step) :
    (min x targetX ≤ laneStep x targetX step
      ∧ laneStep x targetX step ≤ max x targetX)
    ∧ (x = targetX → laneStep x targetX step = x) := by
  constructor
  · by_cases hg : 1 < |x - targetX|
    · rw [laneStep, if_pos hg]
      by_cases hlt : x < targetX
      · rw [if_pos hlt, ratOfInt_eq, qadd_eq, ratOfInt_eq]
        have h1 : (x : ℚ) ≤ min (targetX : ℚ) ((x : ℚ) + step) :=
          le_min (by exact_mod_cast hlt.le) (le_add_of_nonneg_right h)
        have hb := pyInt_bounds h1 (min_le_left _ _)
        exact ⟨le_trans (min_le_left _ _) hb.1, le_trans hb.2 (le_max_right _ _)⟩
      · rw [if_neg hlt, ratOfInt_eq, qsub_eq, ratOfInt_eq]
        have hge : targetX ≤ x := le_of_not_lt hlt
        have h2 : max (targetX : ℚ) ((x : ℚ) - step) ≤ (x : ℚ) :=
          max_le (by exact_mod_cast hge) (sub_le_self _ h)
        have hb := pyInt_bounds (le_max_left _ _) h2
        exact ⟨le_trans (min_le_right _ _) hb.1, le_trans hb.2 (le_max_left _ _)⟩
    · rw [laneStep, if_neg hg]
      exact ⟨min_le_left _ _, le_max_left _ _⟩
  · intro he
    rw [laneStep, he]
    simp

/-- C10 witness: one step from x = 40 toward target 200 with step 7.2
(that is `lane_change_speed * dt * 0.06` at `dt = 10`). -/
theorem claim10_lane_interp_witness :
    (min 40 200 ≤ laneStep 40 200 (mkRat 36 5)
      ∧ laneStep 40 200 (mkRat 36 5) ≤ max 40 200)
    ∧ ((40 : Int) = 200 → laneStep 40 200 (mkRat 36 5) = 40) :=
  claim10_lane_interp 40 200 (mkRat 36 5) (by decide)

/-! ## C3, C4 — spawner -/

/-- A conflict-free lane contains no obstacle above the `min_gap = 140`
line. -/
theorem laneConflict_false {enemies : List Enemy} {lane : Nat}
    (h : laneConflict enemies lane = false) :
    ∀ e ∈ enemies, e.lane = lane → 140 ≤ e.y := by
  intro e he hl
  simp only [laneConflict, List.any_eq_false, Bool.and_eq_true, beq_iff_eq,
    decide_eq_true_eq, not_and] at h
  exact not_lt.mp (h e he hl)

/-- When the candidate walk returns no lane, every candidate conflicted. -/
theorem pickLane_none (enemies : List Enemy) :
    ∀ order : List Nat, pickLane enemies order = none →
      ∀ lane ∈ order, laneConflict enemies lane = true
  | [] => by intro _ lane hl; cases hl
  | a :: rest => by
    intro h lane hl
    rw [pickLane] at h
    by_cases hc : laneConflict enemies a = true
    · rcases List.mem_cons.mp hl with rfl | hmem
      · exact hc
      · rw [if_pos hc] at h
        exact pickLane_none enemies rest h lane hmem
    · rw [if_neg hc] at h
      cases h

/-- A returned lane is conflict-free and is the first conflict-free entry
of the candidate order. -/
theorem pickLane_some (enemies : List Enemy) :
    ∀ (order : List Nat) (lane : Nat), pickLane enemies order = some lane →
      laneConflict enemies lane = false
      ∧ ∃ pre suf, order = pre ++ lane :: suf
          ∧ ∀ l ∈ pre, laneConflict enemies l = true
  | [], lane => by intro h; cases h
  | a :: rest, lane => by
    intro h
    rw [pickLane] at h
    by_cases hc : laneConflict enemies a = true
    · rw [if_pos hc] at h
      obtain ⟨hf, pre, suf, heq, hall⟩ := pickLane_some enemies rest lane h
      refine ⟨hf, a :: pre, suf, by simp [heq], ?_⟩
      intro l hl
      rcases List.mem_cons.mp hl with rfl | hm
      · exact hc
      · exact hall l hm
    · rw [if_neg hc] at h
      injection h with h'
      subst h'
      exact ⟨Bool.not_eq_true _ ▸ hc, [], rest, rfl, by intro l hl; cases hl⟩

/-- C3: a spawned obstacle goes to a lane whose existing obstacles are all
at least `min_gap = 140` below the spawn line; if every candidate lane
conflicts, the tick spawns nothing; consequently a new obstacle is never
closer than the minimum gap to any same-lane obstacle at spawn time. -/
theorem claim3_spawn_gap (laneXs : List Int) (maxE : Nat) (order : List Nat)
    (yOff : Nat) (speed : ℚ) (enemies : List Enemy) (hy : yOff ≤ 180) :
    ((∀ lane ∈ order, laneConflict enemies lane = true) →
        spawn laneXs maxE order yOff speed enemies = enemies)
    ∧ (spawn laneXs maxE order yOff speed enemies = enemies
       ∨ ∃ lane, laneConflict enemies lane = false
           ∧ spawn laneXs maxE order yOff speed enemies
               = enemies ++ [spawnEnemy laneXs lane yOff speed]
           ∧ ∀ e ∈ enemies, e.lane = lane →
               140 ≤ e.y ∧ 140 ≤ |(spawnEnemy laneXs lane yOff speed).y - e.y|) := by
  rw [spawn]
  by_cases hcap : maxE ≤ enemies.length
  · rw [if_pos hcap]
    exact ⟨fun _ => rfl, Or.inl rfl⟩
  · rw [if_neg hcap]
    rcases hpick : pickLane enemies order with _ | lane
    · exact ⟨fun _ => rfl, Or.inl rfl⟩
    · obtain ⟨hf, pre, suf, heq, _⟩ := pickLane_some enemies order lane hpick
      constructor
      · intro hall
        have : lane ∈ order := by rw [heq]; exact List.mem_append_right _ (List.mem_cons_self _ _)
        rw [hall lane this] at hf
        cases hf
      · refine Or.inr ⟨lane, hf, rfl, ?_⟩
        intro e he hl
        have hey : 140 ≤ e.y := laneConflict_false hf e he hl
        have hsy : (spawnEnemy laneXs lane yOff speed).y = -(140 : Int) - (yOff : Int) := rfl
        refine ⟨hey, ?_⟩
        rw [hsy, abs_of_nonpos (by omega)]
        omega

/-- C3 witness: spawning into an empty field with candidate order
`[0, 1, 2]`. -/
theorem claim3_spawn_gap_witness :
    ((∀ lane ∈ [0, 1, 2], laneConflict [] lane = true) →
        spawn [40, 200, 360] 5 [0, 1, 2] 0 (mkRat 9 2) [] = [])
    ∧ (spawn [40, 200, 360] 5 [0, 1, 2] 0 (mkRat 9 2) [] = []
       ∨ ∃ lane, laneConflict [] lane = false
           ∧ spawn [40, 200, 360] 5 [0, 1, 2] 0 (mkRat 9 2) []
               = [] ++ [spawnEnemy [40, 200, 360] lane 0 (mkRat 9 2)]
           ∧ ∀ e ∈ ([] : List Enemy), e.lane = lane →
               140 ≤ e.y ∧ 140 ≤ |(spawnEnemy [40, 200, 360] lane 0 (mkRat 9 2)).y - e.y|) :=
  claim3_spawn_gap [40, 200, 360] 5 [0, 1, 2] 0 (mkRat 9 2) [] (by decide)

/-- C4 counterexample.  The spawner keeps no record of the most recent
spawn's lane, so it is not excluded when alternatives exist.  Run the
trace: from an empty field with shuffle order `[0, 1, 2]` the first spawn
takes lane 0; after that obstacle has advanced to `y = 150` (clearing the
conflict window), a second spawn whose shuffle again begins with lane 0
picks lane 0 once more even though lanes 1 and 2 are both eligible
alternatives — contradicting the claimed exclusion. -/
theorem claim4_counterexample :
    spawn [40, 200, 360] 5 [0, 1, 2] 0 (mkRat 9 2) []
        = [⟨0, 40, -140, mkRat 9 2, false⟩]
    ∧ pickLane [⟨0, 40, 150, mkRat 9 2, false⟩] [0, 1, 2] = some 0
    ∧ laneConflict [⟨0, 40, 150, mkRat 9 2, false⟩] 1 = false
    ∧ laneConflict [⟨0, 40, 150, mkRat 9 2, false⟩] 2 = false := by
  decide

/-- C4 (amended): the spawner has no fairness bias.  Each spawn simply
takes the first lane of the freshly shuffled candidate order that has no
obstacle with `rect.y < 140`; when no candidate qualifies it returns none.
The previous spawn's lane is never excluded, so consecutive spawns may
reuse a lane while alternatives are eligible. -/
theorem claim4_first_eligible (enemies : List Enemy) (order : List Nat) :
    (pickLane enemies order = none →
        ∀ lane ∈ order, laneConflict enemies lane = true)
    ∧ ∀ lane, pickLane enemies order = some lane →
        laneConflict enemies lane = false
        ∧ ∃ pre suf, order = pre ++ lane :: suf
            ∧ ∀ l ∈ pre, laneConflict enemies l = true :=
  ⟨pickLane_none enemies order, fun lane h => pickLane_some enemies order lane h⟩

/-- C4 witness: on an empty field with shuffle order `[2, 0, 1]` the first
candidate, lane 2, is taken. -/
theorem claim4_first_eligible_witness :
    laneConflict [] 2 = false
    ∧ ∃ pre suf, [2, 0, 1] = pre ++ 2 :: suf
        ∧ ∀ l ∈ pre, laneConflict [] l = true :=
  (claim4_first_eligible [] [2, 0, 1]).2 2 (by decide)

/-! ## C7 — disjoint boxes never collide -/

/-- A mask hit implies the bounding boxes overlap: each mask only covers
pixels of its own sprite box. -/
theorem mask_hit_colliderect {p e : Rect} {pm em : Mask}
    (hpm : MaskFits pm p.w p.h) (hem : MaskFits em e.w e.h)
    (hov : maskOverlap pm em (e.x - p.x, e.y - p.y) = true) :
    colliderect p e = true := by
  simp only [maskOverlap, List.any_eq_true] at hov
  obtain ⟨q, hq, hcont⟩ := hov
  have hmem : (q.1 + (e.x - p.x), q.2 + (e.y - p.y)) ∈ pm.bits := by
    simpa using hcont
  obtain ⟨h1, h2, h3, h4⟩ := hpm _ hmem
  obtain ⟨g1, g2, g3, g4⟩ := hem q hq
  simp only [colliderect, Bool.and_eq_true, decide_eq_true_eq] at h1 h2 h3 h4 ⊢
  refine ⟨⟨⟨?_, ?_⟩, ?_⟩, ?_⟩ <;> omega

/-- The shrunken hitboxes stay inside the original boxes, so a fallback hit
implies the boxes overlap. -/
theorem shrunk_colliderect {p e : Rect}
    (hpw : 1 ≤ p.w) (hph : 1 ≤ p.h) (hew : 1 ≤ e.w) (heh : 1 ≤ e.h)
    (h : colliderect (shrunkRect p) (shrunkRect e) = true) :
    colliderect p e = true := by
  simp only [colliderect, shrunkRect, Bool.and_eq_true, decide_eq_true_eq] at h ⊢
  obtain ⟨⟨⟨h1, h2⟩, h3⟩, h4⟩ := h
  refine ⟨⟨⟨?_, ?_⟩, ?_⟩, ?_⟩ <;> omega

/-- C7: when the player and enemy bounding boxes are disjoint, no collision
is reported — neither by the mask-overlap test (chosen when both sprites
have masks) nor by the shrunken-rectangle fallback, i.e. under whichever
policy the mask-availability rule selects. -/
theorem claim7_disjoint_no_collision (p e : Rect) (pm em : Option Mask)
    (hpw : 1 ≤ p.w) (hph : 1 ≤ p.h) (hew : 1 ≤ e.w) (heh : 1 ≤ e.h)
    (hpm : ∀ m, pm = some m → MaskFits m p.w p.h)
    (hem : ∀ m, em = some m → MaskFits m e.w e.h)
    (hdisj : colliderect p e = false) :
    collides pm em p e = false := by
  have hfall : colliderect (shrunkRect p) (shrunkRect e) = false := by
    by_contra hcol
    rw [Bool.not_eq_false] at hcol
    rw [shrunk_colliderect hpw hph hew heh hcol] at hdisj
    cases hdisj
  rcases pm with _ | a <;> rcases em with _ | b
  · exact hfall
  · exact hfall
  · exact hfall
  · show maskOverlap a b (e.x - p.x, e.y - p.y) = false
    by_contra hcol
    rw [Bool.not_eq_false] at hcol
    rw [mask_hit_colliderect (hpm a rfl) (hem b rfl) hcol] at hdisj
    cases hdisj

/-- C7 witness: the player at lane 0 and an enemy fully inside lane 1 have
disjoint boxes, and neither the mask policy (with full-box masks sampled at
the corners) nor the fallback reports a hit. -/
theorem claim7_disjoint_no_collision_witness :
    collides (some (Mask.mk 80 140 [(0, 0), (79, 139)]))
        (some (Mask.mk 80 140 [(0, 0), (79, 139)]))
        (Rect.mk 40 560 80 140) (Rect.mk 200 100 80 140) = false
    ∧ collides none none (Rect.mk 40 560 80 140) (Rect.mk 200 100 80 140) = false := by
  constructor
  · exact claim7_disjoint_no_collision _ _ _ _ (by decide) (by decide) (by decide)
      (by decide) (by intro m hm; cases hm; decide) (by intro m hm; cases hm; decide)
      (by decide)
  · exact claim7_disjoint_no_collision _ _ _ _ (by decide) (by decide) (by decide)
      (by decide) (by intro m hm; cases hm) (by intro m hm; cases hm) (by decide)

/-! ## C5 — score monotonicity and passed-flag idempotence -/

/-- Unfolding equation for `stepOne` with the moved enemy written out. -/
theorem stepOne_eq (pm em : Option Mask) (p : Rect) (scrollTerm : ℚ)
    (score : Int) (e : Enemy) :
    stepOne pm em p scrollTerm score e =
      if collides pm em p (enemyRect { e with y := moveY e scrollTerm }) then
        ⟨true, score, { e with y := moveY e scrollTerm }, false⟩
      else if e.passed = false ∧ p.y + (p.h : Int) < moveY e scrollTerm then
        ⟨false, score + passGain e.x p.x,
          { e with y := moveY e scrollTerm, passed := true },
          decide (SCREEN_H + 200 < moveY e scrollTerm)⟩
      else
        ⟨false, score, { e with y := moveY e scrollTerm },
          decide (SCREEN_H + 200 < moveY e scrollTerm)⟩ := rfl

/-- Every pass bonus is nonnegative. -/
theorem passGain_nonneg (ex px : Int) : 0 ≤ passGain ex px := by
  rw [passGain]
  split_ifs <;> decide

/-- Processing one enemy never decreases the score. -/
theorem stepOne_score_mono (pm em : Option Mask) (p : Rect) (scrollTerm : ℚ)
    (score : Int) (e : Enemy) :
    score ≤ (stepOne pm em p scrollTerm score e).score := by
  rw [stepOne_eq]
  split_ifs
  · exact le_refl _
  · exact le_add_of_nonneg_right (passGain_nonneg _ _)
  · exact le_refl _

/-- The whole per-tick enemy loop never decreases the score. -/
theorem tickLoop_score_mono (pm em : Option Mask) (p : Rect) (scrollTerm : ℚ) :
    ∀ (l : List Enemy) (score : Int),
      score ≤ (tickLoop pm em p scrollTerm score l).1
  | [], score => le_refl score
  | e :: rest, score => by
    rw [tickLoop]
    by_cases hc : (stepOne pm em p scrollTerm score e).collided = true
    · simp only [hc, if_true]
      exact le_refl score
    · simp only [hc, if_false, Bool.false_eq_true]
      exact le_trans (stepOne_score_mono pm em p scrollTerm score e)
        (tickLoop_score_mono pm em p scrollTerm rest _)

/-- C5: within a tick the score is monotonically non-decreasing; an
obstacle already marked `passed` contributes no further score and keeps
its flag; any score change coincides with the obstacle being freshly
marked `passed`; and the first step on which the pass condition holds (no
collision, not yet passed, top below the player's bottom) marks the flag
and awards the bonus exactly once. -/
theorem claim5_score_monotone_passed_once (pm em : Option Mask) (p : Rect)
    (scrollTerm : ℚ) (score : Int) (e : Enemy) (l : List Enemy) :
    score ≤ (tickLoop pm em p scrollTerm score l).1
    ∧ (e.passed = true →
        (stepOne pm em p scrollTerm score e).score = score
        ∧ (stepOne pm em p scrollTerm score e).enemy.passed = true)
    ∧ ((stepOne pm em p scrollTerm score e).score ≠ score →
        e.passed = false
        ∧ (stepOne pm em p scrollTerm score e).enemy.passed = true
        ∧ (stepOne pm em p scrollTerm score e).score = score + passGain e.x p.x)
    ∧ (e.passed = false →
        collides pm em p (enemyRect { e with y := moveY e scrollTerm }) = false →
        p.y + (p.h : Int) < moveY e scrollTerm →
        (stepOne pm em p scrollTerm score e).enemy.passed = true
        ∧ (stepOne pm em p scrollTerm score e).score = score + passGain e.x p.x) := by
  refine ⟨tickLoop_score_mono pm em p scrollTerm l score, ?_, ?_, ?_⟩
  · intro hp
    rw [stepOne_eq]
    split_ifs with h1 h2
    · exact ⟨rfl, hp⟩
    · rw [hp] at h2
      cases h2.1
    · exact ⟨rfl, hp⟩
  · intro hne
    rw [stepOne_eq] at hne ⊢
    split_ifs at hne ⊢ with h1 h2
    · cases hne rfl
    · exact ⟨h2.1, rfl, rfl⟩
    · cases hne rfl
  · intro hp hc hcross
    rw [stepOne_eq]
    rw [if_neg (by rw [hc]; exact Bool.false_ne_true)]
    rw [if_pos ⟨hp, hcross⟩]
    exact ⟨rfl, rfl⟩

/-- C5 witness: an already-passed obstacle is processed without any score
change and keeps its flag; a fresh obstacle crossing the player's bottom
edge without collision is marked and awarded; and the concrete tick leaves
the score non-decreased. -/
theorem claim5_score_monotone_passed_once_witness :
    (0 : Int) ≤ (tickLoop none none (Rect.mk 40 560 80 140) (mkRat 3 5) 0
        [Enemy.mk 1 200 300 (mkRat 5 1) true]).1
    ∧ ((stepOne none none (Rect.mk 40 560 80 140) (mkRat 3 5) 0
          (Enemy.mk 1 200 300 (mkRat 5 1) true)).score = 0
        ∧ (stepOne none none (Rect.mk 40 560 80 140) (mkRat 3 5) 0
            (Enemy.mk 1 200 300 (mkRat 5 1) true)).enemy.passed = true)
    ∧ ((stepOne none none (Rect.mk 40 560 80 140) (mkRat 3 5) 0
          (Enemy.mk 1 200 700 (mkRat 5 1) false)).enemy.passed = true
        ∧ (stepOne none none (Rect.mk 40 560 80 140) (mkRat 3 5) 0
            (Enemy.mk 1 200 700 (mkRat 5 1) false)).score = 0 + passGain 200 40) := by
  refine ⟨?_, ?_, ?_⟩
  · exact (claim5_score_monotone_passed_once none none (Rect.mk 40 560 80 140)
      (mkRat 3 5) 0 (Enemy.mk 1 200 300 (mkRat 5 1) true)
      [Enemy.mk 1 200 300 (mkRat 5 1) true]).1
  · exact (claim5_score_monotone_passed_once none none (Rect.mk 40 560 80 140)
      (mkRat 3 5) 0 (Enemy.mk 1 200 300 (mkRat 5 1) true)
      [Enemy.mk 1 200 300 (mkRat 5 1) true]).2.1 rfl
  · exact (claim5_score_monotone_passed_once none none (Rect.mk 40 560 80 140)
      (mkRat 3 5) 0 (Enemy.mk 1 200 700 (mkRat 5 1) false)
      []).2.2.2 rfl (by decide) (by decide)

/-! ## C8 — pause preserves the run state -/

/-- A single pause-overlay event never touches the run state. -/
theorem pauseHandle_runView (s : PState) (ev : PEvent) :
    runView (pauseHandle s ev) = runView s := by
  cases ev <;> rfl

/-- The pause loop's event dispatch never touches the run state. -/
theorem pauseEvents_runView :
    ∀ (evs : List PEvent) (s : PState),
      runView (pauseEvents s evs) = runView s
  | [], _ => rfl
  | ev :: rest, s => by
    rw [pauseEvents]
    by_cases h : (pauseHandle s ev).paused = true
    · rw [if_pos h, pauseEvents_runView rest _, pauseHandle_runView]
    · rw [if_neg h, pauseHandle_runView]

/-- C8: a Playing → Paused → Playing round trip leaves the run state
untouched — the score, the obstacle set (lanes, positions, speeds, passed
flags), the player/lane variables, the spawn timers and the scroll offset
are exactly what they were when the pause began; the overlay (including
its config writeback on resume) edits only music settings and loop
flags. -/
theorem claim8_pause_preserves_run_state (s : PState) (evs : List PEvent) :
    runView (resumeFinalize (pauseEvents s evs)) = runView s := by
  have h1 : runView (resumeFinalize (pauseEvents s evs))
      = runView (pauseEvents s evs) := rfl
  rw [h1, pauseEvents_runView]

/-! ## C9 — score-persistence failure is non-fatal -/

/-- C9: whatever the persistence call does — succeed, or raise because the
store is unavailable — the end-of-run flow returns normally: no exception
escapes, the in-memory score is unchanged, and the game-over screen's
chosen transition proceeds. -/
theorem claim9_save_failure_nonfatal (save : SaveFn) (userId : Option Nat)
    (score : Int) (mode : String) (choice : GOChoice) :
    runEnd save userId score mode choice = Except.ok (score, choice) := by
  rcases userId with _ | uid
  · rfl
  · cases hs : save uid score mode <;> simp [runEnd, hs]

/-- C9 witness: a persistently failing store still yields a normal
game-over transition with the score intact. -/
theorem claim9_save_failure_nonfatal_witness :
    runEnd (fun _ _ _ => Except.error "database is locked") (some 1) 1500
        "Casual" GOChoice.restart
      = Except.ok (1500, GOChoice.restart) :=
  claim9_save_failure_nonfatal (fun _ _ _ => Except.error "database is locked")
    (some 1) 1500 "Casual" GOChoice.restart

/-! ## C1 — distinct per-mode leaderboard -/

theorem foldl_max_init {α} [LinearOrder α] :
    ∀ (l : List α) (a : α), a ≤ l.foldl max a
  | [], a => le_refl a
  | b :: t, a => le_trans (le_max_left a b) (foldl_max_init t (max a b))

theorem foldl_max_le {α} [LinearOrder α] :
    ∀ (l : List α) (a x : α), x ∈ l → x ≤ l.foldl max a
  | [], _, x, hx => absurd hx (List.not_mem_nil x)
  | b :: t, a, x, hx => by
    rcases List.mem_cons.mp hx with rfl | hm
    · exact le_trans (le_max_right a x) (foldl_max_init t (max a x))
    · exact foldl_max_le t (max a b) x hm

theorem foldl_max_mem {α} [LinearOrder α] :
    ∀ (l : List α) (a : α), l.foldl max a = a ∨ l.foldl max a ∈ l
  | [], _ => Or.inl rfl
  | b :: t, a => by
    rcases foldl_max_mem t (max a b) with h | h
    · rcases max_choice a b with hm | hm
      · exact Or.inl (by rw [List.foldl_cons, h, hm])
      · refine Or.inr ?_
        rw [List.foldl_cons, h, hm]
        exact List.mem_cons_self b t
    · exact Or.inr (List.mem_cons_of_mem b h)

/-- `MAX(score)` over a nonempty username group is attained by some row of
the group and bounds every row of the group. -/
theorem bestScore_spec (j : List (String × Int × String)) (n : String)
    (hmem : ∃ r ∈ j, r.1 = n) :
    (∃ r ∈ j, r.1 = n ∧ r.2.1 = bestScore j n)
    ∧ ∀ r ∈ j, r.1 = n → r.2.1 ≤ bestScore j n := by
  obtain ⟨r0, hr0, hn0⟩ := hmem
  have hr0f : r0 ∈ j.filter fun r => decide (r.1 = n) :=
    List.mem_filter.mpr ⟨hr0, by simp [hn0]⟩
  rcases hml : (j.filter fun r => decide (r.1 = n)).map (fun r => r.2.1) with _ | ⟨a, t⟩
  · have : r0.2.1 ∈ (j.filter fun r => decide (r.1 = n)).map (fun r => r.2.1) :=
      List.mem_map_of_mem _ hr0f
    rw [hml] at this
    cases this
  · have hbs : bestScore j n = t.foldl max a := by
      unfold bestScore
      rw [hml]
    constructor
    · have hmem2 : bestScore j n ∈ (a :: t) := by
        rcases foldl_max_mem t a with h | h
        · rw [hbs, h]
          exact List.mem_cons_self a t
        · rw [hbs]
          exact List.mem_cons_of_mem a h
      rw [← hml] at hmem2
      obtain ⟨r, hrf, hre⟩ := List.mem_map.mp hmem2
      have hrj := (List.mem_filter.mp hrf).1
      have hrn : r.1 = n := by simpa using (List.mem_filter.mp hrf).2
      exact ⟨r, hrj, hrn, hre⟩
    · intro r hr hrn
      have hin : r.2.1 ∈ (a :: t) := by
        rw [← hml]
        exact List.mem_map_of_mem _ (List.mem_filter.mpr ⟨hr, by simp [hrn]⟩)
      rcases List.mem_cons.mp hin with he | hm
      · rw [hbs, he]
        exact foldl_max_init t a
      · rw [hbs]
        exact foldl_max_le t a _ hm

/-- C1: the distinct per-mode leaderboard query returns at most one row per
player (usernames are pairwise distinct), rows are ordered by score
descending, at most `limit` rows are returned, and each row's score is the
maximum score that player has recorded for the requested mode (over the
joined store). -/
theorem claim1_top_scores_distinct (users : List (Nat × String))
    (scores : List ScoreRow) (mode : String) (limit : Nat) :
    ((top_scores users scores mode limit).map LBRow.username).Nodup
    ∧ List.Sorted scoreGe (top_scores users scores mode limit)
    ∧ (top_scores users scores mode limit).length ≤ limit
    ∧ ∀ r ∈ top_scores users scores mode limit,
        (∃ s ∈ joinedMode users scores mode, s.1 = r.username ∧ s.2.1 = r.score)
        ∧ ∀ s ∈ joinedMode users scores mode, s.1 = r.username → s.2.1 ≤ r.score := by
  set j := joinedMode users scores mode with hj
  set names := (j.map fun r => r.1).dedup with hnames
  set rows := names.map fun n => LBRow.mk n (bestScore j n) mode (bestDate j n)
    with hrows
  have htop : top_scores users scores mode limit
      = (List.insertionSort scoreGe rows).take limit := rfl
  have hperm : List.Perm (List.insertionSort scoreGe rows) rows :=
    List.perm_insertionSort scoreGe rows
  refine ⟨?_, ?_, ?_, ?_⟩
  · have hcomp : (LBRow.username ∘ fun n =>
        LBRow.mk n (bestScore j n) mode (bestDate j n)) = id := rfl
    have hmapeq : rows.map LBRow.username = names := by
      rw [hrows, List.map_map, hcomp, List.map_id]
    have hrows_nodup : (rows.map LBRow.username).Nodup := by
      rw [hmapeq]
      exact List.nodup_dedup _
    have h1 : ((List.insertionSort scoreGe rows).map LBRow.username).Nodup :=
      ((hperm.map LBRow.username).nodup_iff).mpr hrows_nodup
    rw [htop]
    exact List.Nodup.sublist ((List.take_sublist limit _).map LBRow.username) h1
  · rw [htop]
    exact List.Pairwise.sublist (List.take_sublist limit _)
      (List.sorted_insertionSort scoreGe rows)
  · rw [htop]
    exact List.length_take_le limit _
  · intro r hr
    rw [htop] at hr
    have hr1 : r ∈ List.insertionSort scoreGe rows := List.mem_of_mem_take hr
    have hr2 : r ∈ rows := hperm.mem_iff.mp hr1
    obtain ⟨n, hn, hre⟩ := List.mem_map.mp hr2
    have hnj : ∃ s ∈ j, s.1 = n := by
      have hn2 := List.mem_dedup.mp hn
      obtain ⟨s, hs, hsn⟩ := List.mem_map.mp hn2
      exact ⟨s, hs, hsn⟩
    obtain ⟨hex, hub⟩ := bestScore_spec j n hnj
    subst hre
    constructor
    · obtain ⟨s, hs, hsn, hsc⟩ := hex
      exact ⟨s, hs, hsn, hsc⟩
    · exact hub

/-- C1 witness: the guarantees instantiated on a concrete two-player
store. -/
theorem claim1_top_scores_distinct_witness :
    ((top_scores [(1, "alice"), (2, "bob")]
        [ScoreRow.mk 1 500 "Casual" "2024-01-01",
         ScoreRow.mk 2 700 "Casual" "2024-01-03"] "Casual" 10).map
        LBRow.username).Nodup
    ∧ List.Sorted scoreGe (top_scores [(1, "alice"), (2, "bob")]
        [ScoreRow.mk 1 500 "Casual" "2024-01-01",
         ScoreRow.mk 2 700 "Casual" "2024-01-03"] "Casual" 10)
    ∧ (top_scores [(1, "alice"), (2, "bob")]
        [ScoreRow.mk 1 500 "Casual" "2024-01-01",
         ScoreRow.mk 2 700 "Casual" "2024-01-03"] "Casual" 10).length ≤ 10
    ∧ ∀ r ∈ top_scores [(1, "alice"), (2, "bob")]
        [ScoreRow.mk 1 500 "Casual" "2024-01-01",
         ScoreRow.mk 2 700 "Casual" "2024-01-03"] "Casual" 10,
        (∃ s ∈ joinedMode [(1, "alice"), (2, "bob")]
            [ScoreRow.mk 1 500 "Casual" "2024-01-01",
             ScoreRow.mk 2 700 "Casual" "2024-01-03"] "Casual",
          s.1 = r.username ∧ s.2.1 = r.score)
        ∧ ∀ s ∈ joinedMode [(1, "alice"), (2, "bob")]
            [ScoreRow.mk 1 500 "Casual" "2024-01-01",
             ScoreRow.mk 2 700 "Casual" "2024-01-03"] "Casual",
            s.1 = r.username → s.2.1 ≤ r.score :=
  claim1_top_scores_distinct [(1, "alice"), (2, "bob")]
    [ScoreRow.mk 1 500 "Casual" "2024-01-01",
     ScoreRow.mk 2 700 "Casual" "2024-01-03"] "Casual" 10
